import Mathlib

/-!
Shallow embedding of the backtesting simulation engine of
`webapp/backtesting_engine.py` — the `BacktestPortfolio` class, the
day-by-day simulation loop of `BacktestEngine._run_backtest`, the
trade-statistics part of `BacktestEngine._calculate_metrics`, and the
run-registry operations of `BacktestEngine` — together with theorems
settling the specification claims about it.

Modelling conventions: Python floats are rationals (ℚ), Python ints are ℤ,
datetimes are ℤ, and Python dicts are insertion-ordered association lists
over `String` keys.
-/

/-- Ordered association-list lookup: the value stored at key `k`, if any
(models Python dict indexing and membership tests). -/
def lookupO {β : Type} : List (String × β) → String → Option β
  | [], _ => none
  | (k', v) :: rest, k => if k' = k then some v else lookupO rest k

/-- Lookup with a default value (models Python dict method get with default). -/
def lookupD {β : Type} (m : List (String × β)) (k : String) (d0 : β) : β :=
  (lookupO m k).getD d0

/-- Store `v` at key `k` (models Python dict assignment): replaces the first
binding of `k`, or appends a new binding at the end. -/
def setKey {β : Type} : List (String × β) → String → β → List (String × β)
  | [], k, v => [(k, v)]
  | (k', v') :: rest, k, v =>
      if k' = k then (k, v) :: rest else (k', v') :: setKey rest k v

/-- Remove every binding of key `k` (models Python dict deletion; the dicts
built by the engine bind each key at most once). -/
def delKey {β : Type} : List (String × β) → String → List (String × β)
  | [], _ => []
  | (k', v') :: rest, k =>
      if k' = k then delKey rest k else (k', v') :: delKey rest k

/-- Merge the bindings of `new` into `m`, in order (models Python dict update). -/
def updAll {β : Type} (m new : List (String × β)) : List (String × β) :=
  new.foldl (fun acc kv => setKey acc kv.1 kv.2) m

/-- The `Trade` dataclass of `backtesting_engine.py` (lines 46–58): a single
executed fill.  `pnl` defaults to `none`, mirroring the Python default
`pnl: Optional[float] = None`. -/
structure Trade where
  symbol : String
  entry_date : Int
  exit_date : Option Int
  entry_price : ℚ
  exit_price : Option ℚ
  quantity : Int
  side : String
  pnl : Option ℚ := none
  commission : ℚ := 0
  reason : String := ""
deriving DecidableEq

/-- The `BacktestPortfolio` class state (lines 487–499): cash, the
symbol → held-quantity dict, the symbol → latest-price dict, and the two
derived valuation attributes. -/
structure BacktestPortfolio where
  initial_capital : ℚ
  cash : ℚ
  commission : ℚ
  slippage : ℚ
  positions : List (String × Int)
  current_prices : List (String × ℚ)
  total_value : ℚ
  positions_value : ℚ
deriving DecidableEq

/-- The `BacktestPortfolio.__init__` constructor (lines 490–499). -/
def mkPortfolio (initial_capital commission slippage : ℚ) : BacktestPortfolio :=
  { initial_capital := initial_capital
    cash := initial_capital
    commission := commission
    slippage := slippage
    positions := []
    current_prices := []
    total_value := initial_capital
    positions_value := 0 }

/-- The `BacktestPortfolio.update_prices` method (lines 501–511): merges the
new prices into the latest-price dict, then recomputes `positions_value` as
the sum, over the price dict, of held quantity times price, and sets
`total_value := cash + positions_value`.  The `date` argument is unused by
the Python method as well. -/
def update_prices (p : BacktestPortfolio) (date : Int)
    (prices : List (String × ℚ)) : BacktestPortfolio :=
  let cp := updAll p.current_prices prices
  let pv := (cp.map (fun sp => ((lookupD p.positions sp.1 0 : Int) : ℚ) * sp.2)).sum
  { p with current_prices := cp, positions_value := pv, total_value := p.cash + pv }

/-- The execution-price computation at the top of
`BacktestPortfolio.execute_trade` (lines 517–521): BUY pays
`price * (1 + slippage)`, any other side receives `price * (1 - slippage)`. -/
def executionPrice (side : String) (price slippage : ℚ) : ℚ :=
  if side = "BUY" then price * (1 + slippage) else price * (1 - slippage)

/-- The `BacktestPortfolio.execute_trade` method (lines 513–571).  Returns the
optional `Trade` (`none` models the Python `return None` rejection) together
with the updated portfolio (the Python method mutates `self`). -/
def execute_trade (p : BacktestPortfolio) (symbol side : String) (quantity : Int)
    (price : ℚ) (date : Int) (reason : String) : Option Trade × BacktestPortfolio :=
  let execution_price := executionPrice side price p.slippage
  let trade_value := (quantity : ℚ) * execution_price
  let commission_cost := trade_value * p.commission
  if side = "BUY" then
    let total_cost := trade_value + commission_cost
    if total_cost ≤ p.cash then
      let p' := { p with
        cash := p.cash - total_cost
        positions := setKey p.positions symbol (lookupD p.positions symbol 0 + quantity) }
      (some { symbol := symbol, entry_date := date, exit_date := none
              entry_price := execution_price, exit_price := none
              quantity := quantity, side := side
              commission := commission_cost, reason := reason }, p')
    else (none, p)
  else if side = "SELL" then
    let current_position := lookupD p.positions symbol 0
    if quantity ≤ current_position then
      let p1 := { p with
        cash := p.cash + trade_value - commission_cost
        positions := setKey p.positions symbol (current_position - quantity) }
      let p2 := if lookupD p1.positions symbol 0 = 0 then
          { p1 with positions := delKey p1.positions symbol }
        else p1
      (some { symbol := symbol, entry_date := date, exit_date := some date
              entry_price := execution_price, exit_price := some execution_price
              quantity := quantity, side := side
              commission := commission_cost, reason := reason }, p2)
    else (none, p)
  else (none, p)

/-- One trading signal, as produced by
`BacktestEngine._simulate_trading_signals` (lines 295–335) and consumed by
the execution loop: symbol, side, quantity, price and a reason string. -/
structure Signal where
  symbol : String
  side : String
  quantity : Int
  price : ℚ
  reason : String := ""
deriving DecidableEq

/-- One day of the simulation input of `BacktestEngine._run_backtest`
(lines 227–248): the trading date, the close prices available that day, and
the signals the momentum rule derives from the (externally fetched) price
history.  Prices and signals are functions of the downloaded market data,
which lives outside the engine; they are abstracted here as inputs. -/
structure DayInput where
  date : Int
  prices : List (String × ℚ)
  signals : List Signal
deriving DecidableEq

/-- The equity-curve sample appended once per simulated day by
`BacktestEngine._run_backtest` (lines 254–261): the portfolio's
`total_value`, `cash` and `positions_value` attributes as they stand after
the day's trades. -/
structure EquityPoint where
  date : Int
  equity : ℚ
  cash : ℚ
  positions_value : ℚ
deriving DecidableEq

/-- The signal-execution loop of one day (lines 241–252): each signal is fed
to `execute_trade`; trades that are returned (not rejected) are appended to
the run's trade list. -/
def execSignals (p : BacktestPortfolio) (date : Int) (sigs : List Signal) :
    BacktestPortfolio × List Trade :=
  sigs.foldl
    (fun acc sig =>
      let r := execute_trade acc.1 sig.symbol sig.side sig.quantity sig.price date sig.reason
      match r.1 with
      | some t => (r.2, acc.2 ++ [t])
      | none => (r.2, acc.2))
    (p, [])

/-- One iteration of the daily loop of `BacktestEngine._run_backtest`
(lines 227–261): update prices, execute the day's signals, then record the
equity point from the portfolio's current attributes. -/
def dayStep (p : BacktestPortfolio) (d : DayInput) :
    BacktestPortfolio × List Trade × EquityPoint :=
  let p1 := update_prices p d.date d.prices
  let r := execSignals p1 d.date d.signals
  (r.1, r.2,
    { date := d.date, equity := r.1.total_value, cash := r.1.cash
      positions_value := r.1.positions_value })

/-- The whole daily loop: fold `dayStep` over the trading calendar,
accumulating the executed trades and the equity curve. -/
def simulateDays (p : BacktestPortfolio) (days : List DayInput) :
    BacktestPortfolio × List Trade × List EquityPoint :=
  days.foldl
    (fun acc d =>
      let r := dayStep acc.1 d
      (r.1, acc.2.1 ++ r.2.1, acc.2.2 ++ [r.2.2]))
    (p, [], [])

/-- The completed-trade filter of `BacktestEngine._calculate_metrics`
(line 372): trades with an exit date recorded. -/
def completedTrades (trades : List Trade) : List Trade :=
  trades.filter (fun t => t.exit_date.isSome)

/-- The winning-trade test of line 373, with Python truthiness: the Python
expression is false when `pnl` is `None` or `0.0`, and otherwise tests
`pnl > 0`. -/
def isWinning (t : Trade) : Bool :=
  match t.pnl with
  | none => false
  | some v => if v = 0 then false else decide (0 < v)

/-- The losing-trade test of line 374, with Python truthiness. -/
def isLosing (t : Trade) : Bool :=
  match t.pnl with
  | none => false
  | some v => if v = 0 then false else decide (v < 0)

/-- Line 373: the completed trades classified as winning. -/
def winningTrades (trades : List Trade) : List Trade :=
  (completedTrades trades).filter isWinning

/-- Line 374: the completed trades classified as losing. -/
def losingTrades (trades : List Trade) : List Trade :=
  (completedTrades trades).filter isLosing

/-- The profit-and-loss value read off a trade in the list comprehensions of
lines 378–386; on those lists `pnl` is never `none`, so the default is
immaterial. -/
def pnlOf (t : Trade) : ℚ := t.pnl.getD 0

/-- Python max over a nonempty list (the code only applies it under a
nonemptiness guard; the empty case, where Python would raise, returns 0). -/
def pyMax : List ℚ → ℚ
  | [] => 0
  | x :: xs => xs.foldl max x

/-- Python min over a nonempty list (same convention as `pyMax`). -/
def pyMin : List ℚ → ℚ
  | [] => 0
  | x :: xs => xs.foldl min x

/-- Line 385: total winning profit-and-loss (`0` when there are no winners). -/
def totalWins (trades : List Trade) : ℚ :=
  if winningTrades trades = [] then 0 else ((winningTrades trades).map pnlOf).sum

/-- Line 386: absolute total losing profit-and-loss (`0` when there are no
losers). -/
def totalLosses (trades : List Trade) : ℚ :=
  if losingTrades trades = [] then 0 else |((losingTrades trades).map pnlOf).sum|

/-- The trade-statistics fields of the `BacktestMetrics` dataclass
(lines 60–79).  `profit_factor` is an `Option ℚ` in which `none` models the
Python value `float('inf')` produced on line 387 when there are no losing
trades; every finite value is `some q`.  The equity-curve statistics of
`_calculate_metrics` (annualised return, volatility, Sharpe) involve real
square roots and powers and are not referenced by any claim, so they are not
carried in this record. -/
structure TradeStats where
  win_rate : ℚ
  profit_factor : Option ℚ
  total_trades : Nat
  winning_trades : Nat
  losing_trades : Nat
  avg_win : ℚ
  avg_loss : ℚ
  largest_win : ℚ
  largest_loss : ℚ
deriving DecidableEq

/-- The trade-statistics computation of `BacktestEngine._calculate_metrics`
(lines 371–387), field for field: win rate guarded by the presence of
completed trades, averages and extrema guarded by nonempty winner/loser
lists, and the profit factor guarded by a positive total loss (otherwise
`float('inf')`, modelled as `none`). -/
def calculate_trade_metrics (trades : List Trade) : TradeStats :=
  { win_rate := if completedTrades trades = [] then 0
      else ((winningTrades trades).length : ℚ) / ((completedTrades trades).length : ℚ)
    profit_factor := if 0 < totalLosses trades then
        some (totalWins trades / totalLosses trades)
      else none
    total_trades := (completedTrades trades).length
    winning_trades := (winningTrades trades).length
    losing_trades := (losingTrades trades).length
    avg_win := if winningTrades trades = [] then 0
      else ((winningTrades trades).map pnlOf).sum / ((winningTrades trades).length : ℚ)
    avg_loss := if losingTrades trades = [] then 0
      else ((losingTrades trades).map pnlOf).sum / ((losingTrades trades).length : ℚ)
    largest_win := if winningTrades trades = [] then 0
      else pyMax ((winningTrades trades).map pnlOf)
    largest_loss := if losingTrades trades = [] then 0
      else pyMin ((losingTrades trades).map pnlOf) }

/-- The all-zero metrics record returned by the exception handler of
`_calculate_metrics` (line 428), restricted to the trade-statistics fields
(`BacktestMetrics(0, ..., 0)`, so the profit factor is the finite 0). -/
def zeroTradeStats : TradeStats :=
  { win_rate := 0, profit_factor := some 0, total_trades := 0
    winning_trades := 0, losing_trades := 0, avg_win := 0, avg_loss := 0
    largest_win := 0, largest_loss := 0 }

/-- The `BacktestStatus` enum (lines 23–29). -/
inductive BacktestStatus where
  | pending
  | running
  | completed
  | failed
  | cancelled
deriving DecidableEq

/-- The `BacktestConfig` dataclass (lines 31–44).  The two opaque free-form
dicts `trading_config` and `risk_config` are passed through untouched by the
engine and are not modelled.  Defaults follow the Python defaults
(commission 0.001, slippage 0.0005). -/
structure BacktestConfig where
  name : String
  description : String
  symbols : List String
  start_date : String
  end_date : String
  initial_capital : ℚ
  benchmark : String := "SPY"
  commission : ℚ := 1 / 1000
  slippage : ℚ := 1 / 2000
deriving DecidableEq

/-- The `BacktestResult` dataclass (lines 81–93).  `metrics` carries the
trade-statistics fields of `BacktestMetrics` (see `TradeStats`). -/
structure BacktestResult where
  id : String
  config : BacktestConfig
  status : BacktestStatus
  metrics : Option TradeStats
  trades : List Trade
  equity_curve : List EquityPoint
  created_at : Int
  started_at : Option Int := none
  completed_at : Option Int := none
  error_message : Option String := none
deriving DecidableEq

/-- The mutable state of a `BacktestEngine` instance (lines 143–149): the
active-run dict, the completed-run dict, and the spawned workers.
`executor_threads` models the multiset of run bodies that have been spawned
by `start_backtest` and have not yet executed; the Python
`executor_threads` dict itself never gates execution (every spawned thread
runs regardless of the dict), so the multiset counts spawned bodies. -/
structure EngineState where
  active_backtests : List (String × BacktestResult)
  completed_backtests : List (String × BacktestResult)
  executor_threads : List String
deriving DecidableEq

/-- A `BacktestEngine` as built by `__init__`: both run dicts empty, no
workers. -/
def initialEngine : EngineState :=
  { active_backtests := [], completed_backtests := [], executor_threads := [] }

/-- The `BacktestEngine.create_backtest` method (lines 153–170): registers a
fresh pending `BacktestResult` in the active dict.  The Python method
derives `backtest_id` from the current timestamp (assumed unique per the
spec); here the generated identifier and the creation time are passed in. -/
def create_backtest (st : EngineState) (backtest_id : String)
    (config : BacktestConfig) (now : Int) : EngineState :=
  let result : BacktestResult :=
    { id := backtest_id, config := config, status := BacktestStatus.pending
      metrics := none, trades := [], equity_curve := [], created_at := now }
  { st with active_backtests := setKey st.active_backtests backtest_id result }

/-- The `BacktestEngine.start_backtest` method (lines 172–192): returns
`false` without touching anything unless the run is registered in the active
dict with status pending; otherwise spawns a worker for the run and returns
`true`. -/
def start_backtest (st : EngineState) (backtest_id : String) :
    Bool × EngineState :=
  match lookupO st.active_backtests backtest_id with
  | none => (false, st)
  | some result =>
      if result.status ≠ BacktestStatus.pending then (false, st)
      else (true, { st with executor_threads := st.executor_threads ++ [backtest_id] })

/-- The outcome of the historical-data load inside a run
(`DataProvider.get_multiple_symbols`, an external network fetch): either no
symbol loads (`noData`, making `_run_backtest` raise and fail the run), or
the data yields a trading calendar of day inputs. -/
inductive RunData where
  | noData
  | ok (days : List DayInput)
deriving DecidableEq

/-- The body of `BacktestEngine._run_backtest` (lines 194–293), executed by a
spawned worker, as one atomic step.  The worker first reads the run from the
active dict (a missing id aborts the body on the spot, as the Python
`KeyError` would, consuming the worker).  It then marks the run running,
loads the data, and either fails the run in place (the failed run is *not*
moved to the completed dict — the move on lines 277–278 sits on the success
path only) or simulates every trading day, attaches the metrics, marks the
run completed and moves it from the active dict to the completed dict.
Either way the worker is consumed (`finally`, lines 290–293). -/
def runBacktest (st : EngineState) (backtest_id : String) (now : Int)
    (data : RunData) : EngineState :=
  if backtest_id ∈ st.executor_threads then
    match lookupO st.active_backtests backtest_id with
    | none => { st with executor_threads := st.executor_threads.erase backtest_id }
    | some result =>
        let r1 := { result with status := BacktestStatus.running, started_at := some now }
        match data with
        | RunData.noData =>
            let r2 := { r1 with
              status := BacktestStatus.failed
              error_message := some "Aucune donnée historique disponible"
              completed_at := some now }
            { st with
              active_backtests := setKey st.active_backtests backtest_id r2
              executor_threads := st.executor_threads.erase backtest_id }
        | RunData.ok days =>
            let portfolio := mkPortfolio result.config.initial_capital
              result.config.commission result.config.slippage
            let sim := simulateDays portfolio days
            let allTrades := r1.trades ++ sim.2.1
            let curve := r1.equity_curve ++ sim.2.2
            let m := if curve = [] then zeroTradeStats else calculate_trade_metrics allTrades
            let r2 := { r1 with
              trades := allTrades, equity_curve := curve
              metrics := some m, status := BacktestStatus.completed
              completed_at := some now }
            { st with
              completed_backtests := setKey st.completed_backtests backtest_id r2
              active_backtests := delKey st.active_backtests backtest_id
              executor_threads := st.executor_threads.erase backtest_id }
  else st

/-- The status a caller observes through `BacktestEngine.get_backtest_status`
(lines 430–452): the active dict is consulted first, then the completed
dict. -/
def get_backtest_status (st : EngineState) (backtest_id : String) :
    Option BacktestStatus :=
  match lookupO st.active_backtests backtest_id with
  | some r => some r.status
  | none =>
      match lookupO st.completed_backtests backtest_id with
      | some r => some r.status
      | none => none

/-- The `BacktestEngine.get_backtest_results` method (lines 454–458): the
full record, available only from the completed dict. -/
def get_backtest_results (st : EngineState) (backtest_id : String) :
    Option BacktestResult :=
  lookupO st.completed_backtests backtest_id

/-- The operations a process can perform on the engine: registering a run,
starting it, and a spawned worker executing its body (with the given
data-load outcome). -/
inductive EngineOp where
  | create (backtest_id : String) (config : BacktestConfig) (now : Int)
  | start (backtest_id : String)
  | run (backtest_id : String) (now : Int) (data : RunData)
deriving DecidableEq

/-- Apply one engine operation to the state. -/
def engineStep (st : EngineState) : EngineOp → EngineState
  | EngineOp.create id c now => create_backtest st id c now
  | EngineOp.start id => (start_backtest st id).2
  | EngineOp.run id now data => runBacktest st id now data

/-- Run a sequence of engine operations from a freshly constructed engine. -/
def runTrace (ops : List EngineOp) : EngineState :=
  ops.foldl engineStep initialEngine

/-- Well-formed use of the engine, per the spec's assumptions: a `create`
uses a generated identifier that is fresh (timestamp identifiers are assumed
unique within a process), and a pending run is not started a second time
while its first worker has not yet executed. -/
def wfOp (st : EngineState) : EngineOp → Prop
  | EngineOp.create id _ _ =>
      lookupO st.active_backtests id = none ∧ lookupO st.completed_backtests id = none
  | EngineOp.start id => id ∉ st.executor_threads
  | EngineOp.run _ _ _ => True

/-- Well-formedness of a whole operation sequence starting at `st`. -/
def wfTrace : EngineState → List EngineOp → Prop
  | _, [] => True
  | st, op :: rest => wfOp st op ∧ wfTrace (engineStep st op) rest

instance (st : EngineState) (op : EngineOp) : Decidable (wfOp st op) :=
  match op with
  | EngineOp.create _ _ _ => inferInstanceAs (Decidable (_ ∧ _))
  | EngineOp.start _ => inferInstanceAs (Decidable (_ ∉ _))
  | EngineOp.run _ _ _ => inferInstanceAs (Decidable True)

instance instDecidableWfTrace :
    (st : EngineState) → (ops : List EngineOp) → Decidable (wfTrace st ops)
  | _, [] => Decidable.isTrue trivial
  | st, op :: rest =>
      have : Decidable (wfTrace (engineStep st op) rest) :=
        instDecidableWfTrace (engineStep st op) rest
      inferInstanceAs (Decidable (_ ∧ _))

/-- The forward status order of the spec: a status is unchanged, or advances
from pending towards running/terminal, or from running to terminal.  In
particular the three terminal statuses can only map to themselves. -/
def allowedStep (s s' : BacktestStatus) : Prop :=
  s' = s
  ∨ (s = BacktestStatus.pending ∧
      (s' = BacktestStatus.running ∨ s' = BacktestStatus.completed ∨
       s' = BacktestStatus.failed))
  ∨ (s = BacktestStatus.running ∧
      (s' = BacktestStatus.completed ∨ s' = BacktestStatus.failed))

instance (s s' : BacktestStatus) : Decidable (allowedStep s s') :=
  inferInstanceAs (Decidable (_ ∨ _))

/-- The operations a caller can perform on one `BacktestPortfolio`
(claim-level interface of §4.2 of the spec): a price update or a trade
request. -/
inductive PortfolioOp where
  | update (date : Int) (prices : List (String × ℚ))
  | exec (symbol side : String) (quantity : Int) (price : ℚ) (date : Int) (reason : String)
deriving DecidableEq

/-- Apply one portfolio operation (discarding the returned trade). -/
def applyOp (p : BacktestPortfolio) : PortfolioOp → BacktestPortfolio
  | PortfolioOp.update d prices => update_prices p d prices
  | PortfolioOp.exec s side q price d reason => (execute_trade p s side q price d reason).2

/-- Apply a sequence of portfolio operations. -/
def runOps (p : BacktestPortfolio) (ops : List PortfolioOp) : BacktestPortfolio :=
  ops.foldl applyOp p

/-- A portfolio operation with a nonnegative quantity and price (every trade
the engine itself requests has quantity 100 and a market price). -/
def opWF : PortfolioOp → Prop
  | PortfolioOp.update _ _ => True
  | PortfolioOp.exec _ _ q price _ _ => 0 ≤ q ∧ 0 ≤ price

instance (op : PortfolioOp) : Decidable (opWF op) :=
  match op with
  | PortfolioOp.update _ _ => inferInstanceAs (Decidable True)
  | PortfolioOp.exec _ _ _ _ _ _ => inferInstanceAs (Decidable (_ ∧ _))

/-- The internal consistency invariant of a well-used engine: every spawned,
not-yet-executed worker belongs to a pending run registered in the active
dict; completed-dict entries have status completed and are absent from the
active dict; and no run has two unexecuted workers. -/
def EngineInv (st : EngineState) : Prop :=
  (∀ id, id ∈ st.executor_threads →
      ∃ r, lookupO st.active_backtests id = some r ∧ r.status = BacktestStatus.pending)
  ∧ (∀ id r, lookupO st.completed_backtests id = some r →
      lookupO st.active_backtests id = none ∧ r.status = BacktestStatus.completed)
  ∧ st.executor_threads.Nodup

/-- A sample configuration used to exercise the engine on concrete runs. -/
def sampleConfig : BacktestConfig :=
  { name := "sample", description := "", symbols := ["TEST"]
    start_date := "2024-01-01", end_date := "2024-02-01", initial_capital := 1000 }

/-! Helper lemmas about the association-list dictionary operations. -/

theorem lookupO_setKey_self {β : Type} (m : List (String × β)) (k : String) (v : β) :
    lookupO (setKey m k v) k = some v := by
  induction m with
  | nil => simp [setKey, lookupO]
  | cons hd tl ih =>
      by_cases h : hd.1 = k
      · simp [setKey, h, lookupO]
      · simpa [setKey, h, lookupO] using ih

theorem lookupO_setKey_ne {β : Type} (m : List (String × β)) (k k' : String) (v : β)
    (h : k' ≠ k) : lookupO (setKey m k v) k' = lookupO m k' := by
  induction m with
  | nil => simp [setKey, lookupO, Ne.symm h]
  | cons hd tl ih =>
      by_cases hh : hd.1 = k
      · simp [setKey, hh, lookupO, Ne.symm h]
      · simp [setKey, hh, lookupO, ih]

theorem lookupO_delKey_self {β : Type} (m : List (String × β)) (k : String) :
    lookupO (delKey m k) k = none := by
  induction m with
  | nil => simp [delKey, lookupO]
  | cons hd tl ih =>
      by_cases h : hd.1 = k
      · simpa [delKey, h] using ih
      · simp [delKey, h, lookupO, ih]

theorem lookupO_delKey_ne {β : Type} (m : List (String × β)) (k k' : String)
    (h : k' ≠ k) : lookupO (delKey m k) k' = lookupO m k' := by
  induction m with
  | nil => simp [delKey]
  | cons hd tl ih =>
      by_cases hh : hd.1 = k
      · simp [delKey, hh, lookupO, ih, Ne.symm h]
      · simp [delKey, hh, lookupO, ih]

theorem lookupD_setKey_self {β : Type} (m : List (String × β)) (k : String) (v d0 : β) :
    lookupD (setKey m k v) k d0 = v := by
  simp [lookupD, lookupO_setKey_self]

theorem lookupD_setKey_ne {β : Type} (m : List (String × β)) (k k' : String) (v d0 : β)
    (h : k' ≠ k) : lookupD (setKey m k v) k' d0 = lookupD m k' d0 := by
  simp [lookupD, lookupO_setKey_ne m k k' v h]

theorem lookupD_delKey {β : Type} (m : List (String × β)) (k k' : String) (d0 : β) :
    lookupD (delKey m k) k' d0 = if k' = k then d0 else lookupD m k' d0 := by
  by_cases h : k' = k
  · simp [h, lookupD, lookupO_delKey_self]
  · simp [h, lookupD, lookupO_delKey_ne m k k' h]

theorem delKey_setKey {β : Type} (m : List (String × β)) (k : String) (v : β) :
    delKey (setKey m k v) k = delKey m k := by
  induction m with
  | nil => simp [setKey, delKey]
  | cons hd tl ih =>
      by_cases h : hd.1 = k
      · simp [setKey, delKey, h]
      · simp [setKey, delKey, h, ih]

theorem setKey_eq_self_of_lookupO {β : Type} (m : List (String × β)) (k : String) (v : β)
    (h : lookupO m k = some v) : setKey m k v = m := by
  induction m with
  | nil => simp [lookupO] at h
  | cons hd tl ih =>
      by_cases hh : hd.1 = k
      · rw [lookupO] at h
        simp only [hh, if_pos] at h
        cases h
        cases hd
        simp_all [setKey]
      · rw [lookupO] at h
        simp only [hh, if_neg, ite_false] at h
        simp [setKey, hh, ih h]

theorem lookupO_of_lookupD_ne {β : Type} (m : List (String × β)) (k : String) (d0 : β)
    (h : lookupD m k d0 ≠ d0) : lookupO m k = some (lookupD m k d0) := by
  unfold lookupD at *
  cases hm : lookupO m k with
  | none => simp [hm] at h
  | some v => simp [hm]

/-! String disequality facts used to evaluate side comparisons. -/

theorem sell_ne_buy : (("SELL" : String) = "BUY") = False := by simp

/-! Characterisation lemmas for `execute_trade`, one per branch of the
Python method. -/

theorem exec_buy_accepted (p : BacktestPortfolio) (symbol : String) (q : Int)
    (price : ℚ) (d : Int) (reason : String)
    (h : (q : ℚ) * (price * (1 + p.slippage)) +
        ((q : ℚ) * (price * (1 + p.slippage))) * p.commission ≤ p.cash) :
    execute_trade p symbol "BUY" q price d reason =
      (some { symbol := symbol, entry_date := d, exit_date := none
              entry_price := price * (1 + p.slippage), exit_price := none
              quantity := q, side := "BUY", pnl := none
              commission := ((q : ℚ) * (price * (1 + p.slippage))) * p.commission
              reason := reason },
       { p with
         cash := p.cash - ((q : ℚ) * (price * (1 + p.slippage)) +
           ((q : ℚ) * (price * (1 + p.slippage))) * p.commission)
         positions := setKey p.positions symbol (lookupD p.positions symbol 0 + q) }) := by
  simp only [execute_trade, executionPrice, eq_self_iff_true, if_true]
  rw [if_pos h]

theorem exec_buy_rejected (p : BacktestPortfolio) (symbol : String) (q : Int)
    (price : ℚ) (d : Int) (reason : String)
    (h : p.cash < (q : ℚ) * (price * (1 + p.slippage)) +
        ((q : ℚ) * (price * (1 + p.slippage))) * p.commission) :
    execute_trade p symbol "BUY" q price d reason = (none, p) := by
  simp only [execute_trade, executionPrice, eq_self_iff_true, if_true]
  rw [if_neg (not_le.mpr h)]

theorem exec_sell_accepted (p : BacktestPortfolio) (symbol : String) (q : Int)
    (price : ℚ) (d : Int) (reason : String)
    (h : q ≤ lookupD p.positions symbol 0) :
    execute_trade p symbol "SELL" q price d reason =
      (some { symbol := symbol, entry_date := d, exit_date := some d
              entry_price := price * (1 - p.slippage)
              exit_price := some (price * (1 - p.slippage))
              quantity := q, side := "SELL", pnl := none
              commission := ((q : ℚ) * (price * (1 - p.slippage))) * p.commission
              reason := reason },
       if lookupD (setKey p.positions symbol (lookupD p.positions symbol 0 - q)) symbol 0 = 0 then
         { p with
           cash := p.cash + (q : ℚ) * (price * (1 - p.slippage)) -
             ((q : ℚ) * (price * (1 - p.slippage))) * p.commission
           positions := delKey (setKey p.positions symbol (lookupD p.positions symbol 0 - q)) symbol }
       else
         { p with
           cash := p.cash + (q : ℚ) * (price * (1 - p.slippage)) -
             ((q : ℚ) * (price * (1 - p.slippage))) * p.commission
           positions := setKey p.positions symbol (lookupD p.positions symbol 0 - q) }) := by
  simp only [execute_trade, executionPrice, sell_ne_buy, if_false, eq_self_iff_true, if_true]
  rw [if_pos h]

theorem exec_sell_rejected (p : BacktestPortfolio) (symbol : String) (q : Int)
    (price : ℚ) (d : Int) (reason : String)
    (h : lookupD p.positions symbol 0 < q) :
    execute_trade p symbol "SELL" q price d reason = (none, p) := by
  simp only [execute_trade, executionPrice, sell_ne_buy, if_false, eq_self_iff_true, if_true]
  rw [if_neg (not_le.mpr h)]

theorem exec_other_side (p : BacktestPortfolio) (symbol side : String) (q : Int)
    (price : ℚ) (d : Int) (reason : String)
    (hb : side ≠ "BUY") (hs : side ≠ "SELL") :
    execute_trade p symbol side q price d reason = (none, p) := by
  simp [execute_trade, executionPrice, hb, hs]

/-! Preservation of the cash/position invariant by portfolio operations. -/

theorem update_prices_fields (p : BacktestPortfolio) (d : Int)
    (prices : List (String × ℚ)) :
    (update_prices p d prices).cash = p.cash ∧
    (update_prices p d prices).positions = p.positions ∧
    (update_prices p d prices).commission = p.commission ∧
    (update_prices p d prices).slippage = p.slippage := by
  simp [update_prices]

theorem applyOp_preserves_inv (p : BacktestPortfolio) (op : PortfolioOp)
    (hc1 : p.commission ≤ 1) (hs1 : p.slippage ≤ 1)
    (hcash : 0 ≤ p.cash) (hpos : ∀ s, 0 ≤ lookupD p.positions s 0)
    (hop : opWF op) :
    (applyOp p op).commission = p.commission ∧
    (applyOp p op).slippage = p.slippage ∧
    0 ≤ (applyOp p op).cash ∧
    ∀ s, 0 ≤ lookupD (applyOp p op).positions s 0 := by
  cases op with
  | update d prices =>
      refine ⟨?_, ?_, ?_, ?_⟩ <;> simp [applyOp, update_prices, hcash, hpos]
  | exec symbol side q price d reason =>
      obtain ⟨hq, hprice⟩ := hop
      by_cases hb : side = "BUY"
      · subst hb
        by_cases hcost : (q : ℚ) * (price * (1 + p.slippage)) +
            ((q : ℚ) * (price * (1 + p.slippage))) * p.commission ≤ p.cash
        · rw [applyOp, exec_buy_accepted p symbol q price d reason hcost]
          refine ⟨rfl, rfl, by simpa using hcost, ?_⟩
          intro s
          by_cases hsym : s = symbol
          · subst hsym
            rw [lookupD_setKey_self]
            have := hpos s
            omega
          · rw [lookupD_setKey_ne _ _ _ _ _ hsym]
            exact hpos s
        · rw [applyOp, exec_buy_rejected p symbol q price d reason (not_le.mp hcost)]
          exact ⟨rfl, rfl, hcash, hpos⟩
      · by_cases hs : side = "SELL"
        · subst hs
          by_cases hheld : q ≤ lookupD p.positions symbol 0
          · rw [applyOp, exec_sell_accepted p symbol q price d reason hheld]
            have htv : 0 ≤ (q : ℚ) * (price * (1 - p.slippage)) := by
              have hq' : (0 : ℚ) ≤ (q : ℚ) := by exact_mod_cast hq
              have : (0 : ℚ) ≤ 1 - p.slippage := by linarith
              positivity
            have hcash' : 0 ≤ p.cash + (q : ℚ) * (price * (1 - p.slippage)) -
                ((q : ℚ) * (price * (1 - p.slippage))) * p.commission := by
              nlinarith [htv, hcash, hc1]
            have hposS : ∀ s, 0 ≤
                lookupD (setKey p.positions symbol (lookupD p.positions symbol 0 - q)) s 0 := by
              intro s
              by_cases hsym : s = symbol
              · subst hsym
                rw [lookupD_setKey_self]
                omega
              · rw [lookupD_setKey_ne _ _ _ _ _ hsym]
                exact hpos s
            by_cases hz : lookupD (setKey p.positions symbol
                (lookupD p.positions symbol 0 - q)) symbol 0 = 0
            · rw [if_pos hz]
              refine ⟨rfl, rfl, hcash', ?_⟩
              intro s
              rw [lookupD_delKey]
              by_cases hsym : s = symbol
              · simp [hsym]
              · rw [if_neg hsym]
                exact hposS s
            · rw [if_neg hz]
              exact ⟨rfl, rfl, hcash', hposS⟩
          · rw [applyOp, exec_sell_rejected p symbol q price d reason (not_le.mp hheld)]
            exact ⟨rfl, rfl, hcash, hpos⟩
        · rw [applyOp, exec_other_side p symbol side q price d reason hb hs]
          exact ⟨rfl, rfl, hcash, hpos⟩

theorem runOps_inv (p : BacktestPortfolio) (ops : List PortfolioOp)
    (hc1 : p.commission ≤ 1) (hs1 : p.slippage ≤ 1)
    (hcash : 0 ≤ p.cash) (hpos : ∀ s, 0 ≤ lookupD p.positions s 0)
    (hops : ∀ op ∈ ops, opWF op) :
    0 ≤ (runOps p ops).cash ∧ ∀ s, 0 ≤ lookupD (runOps p ops).positions s 0 := by
  induction ops generalizing p with
  | nil => exact ⟨hcash, hpos⟩
  | cons op rest ih =>
      have hop : opWF op := hops op (by simp)
      obtain ⟨hcm, hsl, hcash', hpos'⟩ :=
        applyOp_preserves_inv p op hc1 hs1 hcash hpos hop
      have hrest : ∀ o ∈ rest, opWF o := fun o ho => hops o (by simp [ho])
      have := ih (applyOp p op) (hcm ▸ hc1) (hsl ▸ hs1) hcash' hpos' hrest
      simpa [runOps, List.foldl_cons] using this

/-! Shape lemmas for the engine operations. -/

theorem runBacktest_not_spawned (st : EngineState) (id : String) (now : Int)
    (data : RunData) (h : id ∉ st.executor_threads) :
    runBacktest st id now data = st := by
  simp [runBacktest, h]

theorem runBacktest_no_active (st : EngineState) (id : String) (now : Int)
    (data : RunData) (hth : id ∈ st.executor_threads)
    (hact : lookupO st.active_backtests id = none) :
    runBacktest st id now data =
      { st with executor_threads := st.executor_threads.erase id } := by
  unfold runBacktest
  rw [if_pos hth, hact]

theorem runBacktest_noData_shape (st : EngineState) (id : String) (now : Int)
    (r : BacktestResult) (hth : id ∈ st.executor_threads)
    (hact : lookupO st.active_backtests id = some r) :
    ∃ r2 : BacktestResult, r2.status = BacktestStatus.failed ∧
      runBacktest st id now RunData.noData =
        { st with
          active_backtests := setKey st.active_backtests id r2
          executor_threads := st.executor_threads.erase id } := by
  unfold runBacktest
  rw [if_pos hth, hact]
  exact ⟨_, rfl, rfl⟩

theorem runBacktest_ok_shape (st : EngineState) (id : String) (now : Int)
    (days : List DayInput) (r : BacktestResult) (hth : id ∈ st.executor_threads)
    (hact : lookupO st.active_backtests id = some r) :
    ∃ r2 : BacktestResult, r2.status = BacktestStatus.completed ∧
      runBacktest st id now (RunData.ok days) =
        { st with
          completed_backtests := setKey st.completed_backtests id r2
          active_backtests := delKey st.active_backtests id
          executor_threads := st.executor_threads.erase id } := by
  unfold runBacktest
  rw [if_pos hth, hact]
  exact ⟨_, rfl, rfl⟩

theorem start_backtest_maps (st : EngineState) (id : String) :
    ((start_backtest st id).2).active_backtests = st.active_backtests ∧
    ((start_backtest st id).2).completed_backtests = st.completed_backtests := by
  unfold start_backtest
  rcases hm : lookupO st.active_backtests id with _ | r
  · simp
  · by_cases hp : r.status ≠ BacktestStatus.pending <;> simp [hp]

theorem start_backtest_false (st : EngineState) (id : String)
    (h : ∀ r, lookupO st.active_backtests id = some r → r.status ≠ BacktestStatus.pending) :
    start_backtest st id = (false, st) := by
  unfold start_backtest
  rcases hm : lookupO st.active_backtests id with _ | r
  · rfl
  · simp [h r hm]

theorem status_congr (st1 st2 : EngineState) (id : String)
    (ha : lookupO st1.active_backtests id = lookupO st2.active_backtests id)
    (hc : lookupO st1.completed_backtests id = lookupO st2.completed_backtests id) :
    get_backtest_status st1 id = get_backtest_status st2 id := by
  unfold get_backtest_status
  rw [ha, hc]

theorem initialEngine_inv : EngineInv initialEngine := by
  refine ⟨?_, ?_, ?_⟩ <;> simp [initialEngine, EngineInv, lookupO]

theorem engineStep_preserves_inv (st : EngineState) (op : EngineOp)
    (hInv : EngineInv st) (hwf : wfOp st op) : EngineInv (engineStep st op) := by
  obtain ⟨hthreads, hcomp, hnodup⟩ := hInv
  cases op with
  | create id0 c now =>
      obtain ⟨hfa, hfc⟩ := hwf
      refine ⟨?_, ?_, hnodup⟩
      · intro id' hid'
        obtain ⟨r, hr, hrp⟩ := hthreads id' hid'
        have hne : id' ≠ id0 := by
          rintro rfl
          rw [hfa] at hr
          cases hr
        refine ⟨r, ?_, hrp⟩
        simp only [engineStep, create_backtest]
        rw [lookupO_setKey_ne _ _ _ _ hne]
        exact hr
      · intro id' r' hr'
        have hr'' : lookupO st.completed_backtests id' = some r' := by
          simpa [engineStep, create_backtest] using hr'
        obtain ⟨hactn, hst⟩ := hcomp id' r' hr''
        have hne : id' ≠ id0 := by
          rintro rfl
          rw [hfc] at hr''
          cases hr''
        refine ⟨?_, hst⟩
        simp only [engineStep, create_backtest]
        rw [lookupO_setKey_ne _ _ _ _ hne]
        exact hactn
  | start id0 =>
      show EngineInv (start_backtest st id0).2
      unfold start_backtest
      rcases hm : lookupO st.active_backtests id0 with _ | r
      · exact ⟨hthreads, hcomp, hnodup⟩
      · show EngineInv
          (if r.status ≠ BacktestStatus.pending then (false, st)
           else (true,
             { active_backtests := st.active_backtests
               completed_backtests := st.completed_backtests
               executor_threads := st.executor_threads ++ [id0] })).2
        by_cases hp : r.status ≠ BacktestStatus.pending
        · rw [if_pos hp]
          exact ⟨hthreads, hcomp, hnodup⟩
        · push_neg at hp
          rw [if_neg (by simp [hp] : ¬ (r.status ≠ BacktestStatus.pending))]
          refine ⟨?_, hcomp, ?_⟩
          · intro id' hid'
            rcases List.mem_append.mp hid' with h1 | h2
            · exact hthreads id' h1
            · have : id' = id0 := by simpa using h2
              subst this
              exact ⟨r, hm, hp⟩
          · rw [List.nodup_append]
            refine ⟨hnodup, List.nodup_singleton id0, ?_⟩
            intro a ha hb
            rw [List.mem_singleton] at hb
            subst hb
            exact hwf ha
  | run id0 now data =>
      by_cases hth : id0 ∈ st.executor_threads
      · obtain ⟨r, hact, hrp⟩ := hthreads id0 hth
        cases data with
        | noData =>
            obtain ⟨r2, _, heq⟩ := runBacktest_noData_shape st id0 now r hth hact
            show EngineInv (runBacktest st id0 now RunData.noData)
            rw [heq]
            refine ⟨?_, ?_, hnodup.erase id0⟩
            · intro id' hid'
              obtain ⟨hne, hidmem⟩ := (List.Nodup.mem_erase_iff hnodup).mp hid'
              obtain ⟨rr, hrr, hrrp⟩ := hthreads id' hidmem
              refine ⟨rr, ?_, hrrp⟩
              rw [lookupO_setKey_ne _ _ _ _ hne]
              exact hrr
            · intro id' r' hr'
              obtain ⟨hactn, hst⟩ := hcomp id' r' hr'
              have hne : id' ≠ id0 := by
                rintro rfl
                rw [hact] at hactn
                cases hactn
              refine ⟨?_, hst⟩
              rw [lookupO_setKey_ne _ _ _ _ hne]
              exact hactn
        | ok days =>
            obtain ⟨r2, hr2, heq⟩ := runBacktest_ok_shape st id0 now days r hth hact
            show EngineInv (runBacktest st id0 now (RunData.ok days))
            rw [heq]
            refine ⟨?_, ?_, hnodup.erase id0⟩
            · intro id' hid'
              obtain ⟨hne, hidmem⟩ := (List.Nodup.mem_erase_iff hnodup).mp hid'
              obtain ⟨rr, hrr, hrrp⟩ := hthreads id' hidmem
              refine ⟨rr, ?_, hrrp⟩
              rw [lookupO_delKey_ne _ _ _ hne]
              exact hrr
            · intro id' r' hr'
              by_cases hne : id' = id0
              · subst hne
                rw [lookupO_setKey_self] at hr'
                cases hr'
                exact ⟨by rw [lookupO_delKey_self], hr2⟩
              · rw [lookupO_setKey_ne _ _ _ _ hne] at hr'
                obtain ⟨hactn, hst⟩ := hcomp id' r' hr'
                refine ⟨?_, hst⟩
                rw [lookupO_delKey_ne _ _ _ hne]
                exact hactn
      · show EngineInv (runBacktest st id0 now data)
        rw [runBacktest_not_spawned st id0 now data hth]
        exact ⟨hthreads, hcomp, hnodup⟩

theorem engineStep_status_forward (st : EngineState) (op : EngineOp) (id : String)
    (s : BacktestStatus) (hInv : EngineInv st) (hwf : wfOp st op)
    (hs : get_backtest_status st id = some s) :
    ∃ s', get_backtest_status (engineStep st op) id = some s' ∧ allowedStep s s' := by
  obtain ⟨hthreads, hcomp, hnodup⟩ := hInv
  cases op with
  | create id0 c now =>
      obtain ⟨hfa, hfc⟩ := hwf
      have hne : id ≠ id0 := by
        rintro rfl
        unfold get_backtest_status at hs
        rw [hfa, hfc] at hs
        cases hs
      refine ⟨s, ?_, Or.inl rfl⟩
      rw [status_congr (engineStep st (EngineOp.create id0 c now)) st id ?_ ?_]
      · exact hs
      · simp only [engineStep, create_backtest]
        exact lookupO_setKey_ne _ _ _ _ hne
      · rfl
  | start id0 =>
      have hmaps := start_backtest_maps st id0
      refine ⟨s, ?_, Or.inl rfl⟩
      show get_backtest_status (start_backtest st id0).2 id = some s
      rw [status_congr (start_backtest st id0).2 st id (by rw [hmaps.1]) (by rw [hmaps.2])]
      exact hs
  | run id0 now data =>
      by_cases hth : id0 ∈ st.executor_threads
      · obtain ⟨r, hact, hrp⟩ := hthreads id0 hth
        by_cases hid : id = id0
        · subst hid
          have hspend : s = BacktestStatus.pending := by
            unfold get_backtest_status at hs
            rw [hact] at hs
            cases hs
            exact hrp
          subst hspend
          cases data with
          | noData =>
              obtain ⟨r2, hr2, heq⟩ := runBacktest_noData_shape st id now r hth hact
              refine ⟨BacktestStatus.failed, ?_, ?_⟩
              · show get_backtest_status (runBacktest st id now RunData.noData) id = _
                rw [heq]
                unfold get_backtest_status
                rw [lookupO_setKey_self]
                simp [hr2]
              · exact Or.inr (Or.inl ⟨rfl, Or.inr (Or.inr rfl)⟩)
          | ok days =>
              obtain ⟨r2, hr2, heq⟩ := runBacktest_ok_shape st id now days r hth hact
              refine ⟨BacktestStatus.completed, ?_, ?_⟩
              · show get_backtest_status (runBacktest st id now (RunData.ok days)) id = _
                rw [heq]
                unfold get_backtest_status
                rw [lookupO_delKey_self, lookupO_setKey_self]
                simp [hr2]
              · exact Or.inr (Or.inl ⟨rfl, Or.inr (Or.inl rfl)⟩)
        · refine ⟨s, ?_, Or.inl rfl⟩
          cases data with
          | noData =>
              obtain ⟨r2, _, heq⟩ := runBacktest_noData_shape st id0 now r hth hact
              show get_backtest_status (runBacktest st id0 now RunData.noData) id = some s
              rw [heq]
              rw [status_congr _ st id ?_ ?_]
              · exact hs
              · exact lookupO_setKey_ne _ _ _ _ hid
              · rfl
          | ok days =>
              obtain ⟨r2, _, heq⟩ := runBacktest_ok_shape st id0 now days r hth hact
              show get_backtest_status (runBacktest st id0 now (RunData.ok days)) id = some s
              rw [heq]
              rw [status_congr _ st id ?_ ?_]
              · exact hs
              · exact lookupO_delKey_ne _ _ _ hid
              · exact lookupO_setKey_ne _ _ _ _ hid
      · refine ⟨s, ?_, Or.inl rfl⟩
        show get_backtest_status (runBacktest st id0 now data) id = some s
        rw [runBacktest_not_spawned st id0 now data hth]
        exact hs

theorem wfTrace_append (st : EngineState) (ops : List EngineOp) (op : EngineOp) :
    wfTrace st (ops ++ [op]) ↔ wfTrace st ops ∧ wfOp (ops.foldl engineStep st) op := by
  induction ops generalizing st with
  | nil => simp [wfTrace]
  | cons o rest ih =>
      simp only [List.cons_append, wfTrace, List.foldl_cons]
      exact (and_congr_right fun _ => ih (engineStep st o)).trans and_assoc.symm

theorem foldl_preserves_inv (ops : List EngineOp) (st : EngineState)
    (hInv : EngineInv st) (h : wfTrace st ops) : EngineInv (ops.foldl engineStep st) := by
  induction ops generalizing st with
  | nil => exact hInv
  | cons o rest ih =>
      obtain ⟨hwf, hrest⟩ := h
      exact ih (engineStep st o) (engineStep_preserves_inv st o hInv hwf) hrest

theorem runTrace_inv (ops : List EngineOp) (h : wfTrace initialEngine ops) :
    EngineInv (runTrace ops) :=
  foldl_preserves_inv ops initialEngine initialEngine_inv h

theorem completed_preserved (st : EngineState) (id : String) (r : BacktestResult)
    (hc : lookupO st.completed_backtests id = some r)
    (ha : lookupO st.active_backtests id = none) (op : EngineOp) :
    lookupO (engineStep st op).completed_backtests id = some r := by
  cases op with
  | create id0 c now =>
      simpa [engineStep, create_backtest] using hc
  | start id0 =>
      have hmaps := start_backtest_maps st id0
      show lookupO (start_backtest st id0).2.completed_backtests id = some r
      rw [hmaps.2]
      exact hc
  | run id0 now data =>
      by_cases hth : id0 ∈ st.executor_threads
      · rcases hm : lookupO st.active_backtests id0 with _ | r0
        · show lookupO (runBacktest st id0 now data).completed_backtests id = some r
          rw [runBacktest_no_active st id0 now data hth hm]
          exact hc
        · have hne : id ≠ id0 := by
            rintro rfl
            rw [ha] at hm
            cases hm
          cases data with
          | noData =>
              obtain ⟨r2, _, heq⟩ := runBacktest_noData_shape st id0 now r0 hth hm
              show lookupO (runBacktest st id0 now RunData.noData).completed_backtests id = some r
              rw [heq]
              exact hc
          | ok days =>
              obtain ⟨r2, _, heq⟩ := runBacktest_ok_shape st id0 now days r0 hth hm
              show lookupO (runBacktest st id0 now (RunData.ok days)).completed_backtests id = some r
              rw [heq]
              rw [lookupO_setKey_ne _ _ _ _ hne]
              exact hc
      · show lookupO (runBacktest st id0 now data).completed_backtests id = some r
        rw [runBacktest_not_spawned st id0 now data hth]
        exact hc

/-! Lemmas about the trade statistics. -/

theorem completedTrades_nil_of_open (trades : List Trade)
    (h : ∀ t ∈ trades, t.exit_date = none) : completedTrades trades = [] := by
  rw [completedTrades, List.filter_eq_nil_iff]
  intro t ht
  simp [h t ht]

theorem winningTrades_nil_of_pnl_none (trades : List Trade)
    (h : ∀ t ∈ trades, t.pnl = none) : winningTrades trades = [] := by
  rw [winningTrades, List.filter_eq_nil_iff]
  intro t ht
  have hp := h t (List.mem_filter.mp ht).1
  simp [isWinning, hp]

theorem losingTrades_nil_of_pnl_none (trades : List Trade)
    (h : ∀ t ∈ trades, t.pnl = none) : losingTrades trades = [] := by
  rw [losingTrades, List.filter_eq_nil_iff]
  intro t ht
  have hp := h t (List.mem_filter.mp ht).1
  simp [isLosing, hp]

/-! Claim theorems. -/

/-- Claim C1 (code evaluated at the failing input): the spec asserts
`equity == cash + positions_value` at every EquityPoint, but on a day that
executes a trade the recorded `equity` is the `total_value` computed at
price-update time while `cash` is read after the trade, so the identity
fails.  With initial capital 100000, zero commission and slippage, one BUY
of 100 units at price 100 on the day, the recorded point has
equity = 100000, cash = 90000, positions_value = 0. -/
theorem C1_equity_point_identity_fails :
    (dayStep (mkPortfolio 100000 0 0)
        { date := 0, prices := [("TEST", 100)]
          signals := [{ symbol := "TEST", side := "BUY", quantity := 100,
                        price := 100, reason := "sig" }] }).2.2
      = { date := 0, equity := 100000, cash := 90000, positions_value := 0 }
    ∧ (100000 : ℚ) ≠ 90000 + 0 := by
  constructor
  · norm_num [dayStep, update_prices, execSignals, execute_trade, executionPrice,
      mkPortfolio, lookupD, lookupO, setKey, delKey, updAll]
  · norm_num

/-- Claim C2 (code evaluated at the failing input): in the round-trip
scenario (buy 100 units at 100, sell 100 units at 110, zero slippage and
commission) the SELL returns a closed trade, but its `pnl` field is `none` —
`execute_trade` never populates `pnl` — rather than the 1000 the spec
expects; the cash balance does end at 101000. -/
theorem C2_round_trip_sell_pnl_none :
    (execute_trade ((execute_trade (mkPortfolio 100000 0 0) "TEST" "BUY" 100 100 0 "buy").2)
        "TEST" "SELL" 100 110 0 "sell")
      = (some { symbol := "TEST", entry_date := 0, exit_date := some 0, entry_price := 110,
                exit_price := some 110, quantity := 100, side := "SELL", pnl := none,
                commission := 0, reason := "sell" },
         { initial_capital := 100000, cash := 101000, commission := 0, slippage := 0,
           positions := [], current_prices := [], total_value := 100000,
           positions_value := 0 }) := by
  norm_num [execute_trade, executionPrice, mkPortfolio, lookupD, lookupO, setKey,
    delKey, sell_ne_buy]

/-- Claim C3, counterexample to the claim as stated: on a run with zero
closed trades the code computes `profit_factor = float('inf')` (line 387,
modelled as `none`), not 0 as the claim asserts. -/
theorem C3_profit_factor_counterexample :
    (calculate_trade_metrics [{ symbol := "TEST", entry_date := 0, exit_date := none, entry_price := 100, exit_price := none, quantity := 100, side := "BUY" }]).profit_factor = none
    ∧ (calculate_trade_metrics [{ symbol := "TEST", entry_date := 0, exit_date := none, entry_price := 100, exit_price := none, quantity := 100, side := "BUY" }]).profit_factor ≠ some 0 := by
  decide

/-- Claim C3 as amended: for every trade list with zero closed trades (no
trade has an exit date) the metrics computation yields `win_rate = 0` and
`profit_factor = float('inf')` (the `none` value) — every division the code
performs is guarded, so no division error arises. -/
theorem C3_no_closed_trades_stats (trades : List Trade)
    (h : ∀ t ∈ trades, t.exit_date = none) :
    (calculate_trade_metrics trades).win_rate = 0 ∧
    (calculate_trade_metrics trades).profit_factor = none := by
  have hc := completedTrades_nil_of_open trades h
  have hw : winningTrades trades = [] := by rw [winningTrades, hc]; rfl
  have hl : losingTrades trades = [] := by rw [losingTrades, hc]; rfl
  constructor
  · simp [calculate_trade_metrics, hc]
  · simp [calculate_trade_metrics, totalLosses, hl]

/-- Witness for C3: the amended statement applied to a concrete one-element
trade list with no exit date. -/
theorem C3_no_closed_trades_stats_witness :
    (calculate_trade_metrics [{ symbol := "W", entry_date := 3, exit_date := none, entry_price := 7, exit_price := none, quantity := 2, side := "BUY" }]).win_rate = 0 ∧
    (calculate_trade_metrics [{ symbol := "W", entry_date := 3, exit_date := none, entry_price := 7, exit_price := none, quantity := 2, side := "BUY" }]).profit_factor = none :=
  C3_no_closed_trades_stats _ (by decide)

/-- Claim C5: every constraint-violating call to `execute_trade` — a BUY
whose total cost exceeds cash, a SELL for more than the held quantity, or an
unrecognised side — returns `none` (Rejected) and leaves the portfolio
completely unchanged. -/
theorem C5_rejection_no_mutation (p : BacktestPortfolio) (symbol side : String)
    (quantity : Int) (price : ℚ) (date : Int) (reason : String)
    (h : (side = "BUY" ∧ p.cash < (quantity : ℚ) * (price * (1 + p.slippage)) +
            ((quantity : ℚ) * (price * (1 + p.slippage))) * p.commission)
       ∨ (side = "SELL" ∧ lookupD p.positions symbol 0 < quantity)
       ∨ (side ≠ "BUY" ∧ side ≠ "SELL")) :
    execute_trade p symbol side quantity price date reason = (none, p) := by
  rcases h with ⟨hb, hlt⟩ | ⟨hs, hlt⟩ | ⟨hb, hs⟩
  · subst hb
    exact exec_buy_rejected p symbol quantity price date reason hlt
  · subst hs
    exact exec_sell_rejected p symbol quantity price date reason hlt
  · exact exec_other_side p symbol side quantity price date reason hb hs

/-- Witness for C5: the insufficient-funds scenario of the spec (capital
100, buy 10 units at price 50) is rejected with the portfolio unchanged. -/
theorem C5_rejection_no_mutation_witness :
    execute_trade (mkPortfolio 100 0 0) "TEST" "BUY" 10 50 0 "" =
      (none, mkPortfolio 100 0 0) :=
  C5_rejection_no_mutation (mkPortfolio 100 0 0) "TEST" "BUY" 10 50 0 ""
    (Or.inl ⟨rfl, by norm_num [mkPortfolio]⟩)

/-- Claim C9: `execute_trade` never populates the `pnl` field of any trade
it creates, so on the non-exception path — for any trade list whose trades
all carry `pnl = none` — the metrics record has zero winning and losing
counts, zero win rate, zero averages and extrema, and an infinite profit
factor (`none`). -/
theorem C9_pnl_never_populated_stats :
    (∀ (p : BacktestPortfolio) (symbol side : String) (quantity : Int) (price : ℚ)
        (date : Int) (reason : String) (t : Trade),
        (execute_trade p symbol side quantity price date reason).1 = some t →
        t.pnl = none)
    ∧ (∀ trades : List Trade, (∀ t ∈ trades, t.pnl = none) →
        (calculate_trade_metrics trades).winning_trades = 0 ∧
        (calculate_trade_metrics trades).losing_trades = 0 ∧
        (calculate_trade_metrics trades).win_rate = 0 ∧
        (calculate_trade_metrics trades).avg_win = 0 ∧
        (calculate_trade_metrics trades).avg_loss = 0 ∧
        (calculate_trade_metrics trades).largest_win = 0 ∧
        (calculate_trade_metrics trades).largest_loss = 0 ∧
        (calculate_trade_metrics trades).profit_factor = none) := by
  constructor
  · intro p symbol side q price d reason t h
    by_cases hb : side = "BUY"
    · subst hb
      by_cases hcost : (q : ℚ) * (price * (1 + p.slippage)) +
          ((q : ℚ) * (price * (1 + p.slippage))) * p.commission ≤ p.cash
      · rw [exec_buy_accepted p symbol q price d reason hcost] at h
        cases h
        rfl
      · rw [exec_buy_rejected p symbol q price d reason (not_le.mp hcost)] at h
        cases h
    · by_cases hs : side = "SELL"
      · subst hs
        by_cases hheld : q ≤ lookupD p.positions symbol 0
        · rw [exec_sell_accepted p symbol q price d reason hheld] at h
          cases h
          rfl
        · rw [exec_sell_rejected p symbol q price d reason (not_le.mp hheld)] at h
          cases h
      · rw [exec_other_side p symbol side q price d reason hb hs] at h
        cases h
  · intro trades h
    have hw := winningTrades_nil_of_pnl_none trades h
    have hl := losingTrades_nil_of_pnl_none trades h
    refine ⟨?_, ?_, ?_, ?_, ?_, ?_, ?_, ?_⟩ <;>
      simp [calculate_trade_metrics, totalWins, totalLosses, hw, hl]

/-- Witness for C9: the first part applied to a concrete accepted BUY, and
the second applied to the concrete singleton list holding the trade that BUY
returns. -/
theorem C9_pnl_never_populated_stats_witness :
    ({ symbol := "TEST", entry_date := 0, exit_date := none, entry_price := 10, exit_price := none, quantity := 1, side := "BUY", pnl := none, commission := 0, reason := "" } : Trade).pnl = none ∧
    (calculate_trade_metrics [{ symbol := "TEST", entry_date := 0, exit_date := none, entry_price := 10, exit_price := none, quantity := 1, side := "BUY", pnl := none, commission := 0, reason := "" }]).profit_factor = none :=
  ⟨C9_pnl_never_populated_stats.1 (mkPortfolio 100 0 0) "TEST" "BUY" 1 10 0 ""
      _ (by norm_num [execute_trade, executionPrice, mkPortfolio, lookupD, lookupO, setKey]),
   (C9_pnl_never_populated_stats.2 _ (by decide)).2.2.2.2.2.2.2⟩

/-- Claim C6, counterexample to the claim as stated: the universally
quantified no-negative-position property fails for a BUY with negative
quantity — with capital 100 and zero rates, a BUY of -10 units at price 10
passes the cash guard (its total cost is negative) and leaves position -10. -/
theorem C6_negative_quantity_counterexample :
    lookupD (runOps (mkPortfolio 100 0 0)
      [PortfolioOp.exec "T" "BUY" (-10) 10 0 ""]).positions "T" 0 = -10 ∧
    lookupD (runOps (mkPortfolio 100 0 0)
      [PortfolioOp.exec "T" "BUY" (-10) 10 0 ""]).positions "T" 0 < 0 := by
  norm_num [runOps, applyOp, execute_trade, executionPrice, mkPortfolio,
    lookupD, lookupO, setKey]

/-- Claim C6 as amended: a BUY only ever executes when trade value plus
commission is at most cash, a SELL for more than the held quantity is always
rejected (both for arbitrary inputs); and for every operation sequence whose
trades have nonnegative quantity and price, with the commission and slippage
rates in the unit interval and a nonnegative initial capital, the cash
balance stays nonnegative and no position quantity ever goes negative. -/
theorem C6_cash_position_invariant :
    (∀ (p : BacktestPortfolio) (symbol : String) (q : Int) (price : ℚ) (d : Int)
        (reason : String) (t : Trade) (p' : BacktestPortfolio),
        execute_trade p symbol "BUY" q price d reason = (some t, p') →
        (q : ℚ) * (price * (1 + p.slippage)) +
          ((q : ℚ) * (price * (1 + p.slippage))) * p.commission ≤ p.cash)
    ∧ (∀ (p : BacktestPortfolio) (symbol : String) (q : Int) (price : ℚ) (d : Int)
        (reason : String),
        lookupD p.positions symbol 0 < q →
        execute_trade p symbol "SELL" q price d reason = (none, p))
    ∧ (∀ (init comm slip : ℚ) (ops : List PortfolioOp),
        0 ≤ init → 0 ≤ comm → comm ≤ 1 → 0 ≤ slip → slip ≤ 1 →
        (∀ op ∈ ops, opWF op) →
        0 ≤ (runOps (mkPortfolio init comm slip) ops).cash ∧
        ∀ s, 0 ≤ lookupD (runOps (mkPortfolio init comm slip) ops).positions s 0) := by
  refine ⟨?_, ?_, ?_⟩
  · intro p symbol q price d reason t p' h
    by_cases hcost : (q : ℚ) * (price * (1 + p.slippage)) +
        ((q : ℚ) * (price * (1 + p.slippage))) * p.commission ≤ p.cash
    · exact hcost
    · rw [exec_buy_rejected p symbol q price d reason (not_le.mp hcost)] at h
      simp at h
  · exact fun p symbol q price d reason h =>
      exec_sell_rejected p symbol q price d reason h
  · intro init comm slip ops h0 hc0 hc1 hs0 hs1 hops
    exact runOps_inv (mkPortfolio init comm slip) ops
      (by simpa [mkPortfolio] using hc1) (by simpa [mkPortfolio] using hs1)
      (by simpa [mkPortfolio] using h0)
      (by intro s; simp [mkPortfolio, lookupD, lookupO]) hops

/-- Witness for C6: the invariant part applied to a concrete well-formed
sequence (one BUY, one price update) from capital 100 with zero rates. -/
theorem C6_cash_position_invariant_witness :
    0 ≤ (runOps (mkPortfolio 100 0 0)
      [PortfolioOp.exec "T" "BUY" 1 5 0 "", PortfolioOp.update 1 [("T", 6)]]).cash ∧
    0 ≤ lookupD (runOps (mkPortfolio 100 0 0)
      [PortfolioOp.exec "T" "BUY" 1 5 0 "", PortfolioOp.update 1 [("T", 6)]]).positions "T" 0 :=
  have h := C6_cash_position_invariant.2.2 100 0 0
    [PortfolioOp.exec "T" "BUY" 1 5 0 "", PortfolioOp.update 1 [("T", 6)]]
    (by decide) (by decide) (by decide) (by decide) (by decide) (by decide)
  ⟨h.1, h.2 "T"⟩

/-- Claim C8: every accepted trade records the slipped execution price
(BUY at `price * (1 + slippage)`, SELL at `price * (1 - slippage)`), a
commission of quantity times execution price times the commission rate; a
BUY debits cash by trade value plus commission and stays open, and a SELL
credits cash by trade value minus commission, removes the position entry if
it reaches zero, and is closed with its exit date equal to its entry date. -/
theorem C8_accepted_trade_effects (p : BacktestPortfolio) (symbol side : String)
    (quantity : Int) (price : ℚ) (date : Int) (reason : String)
    (t : Trade) (p' : BacktestPortfolio)
    (h : execute_trade p symbol side quantity price date reason = (some t, p')) :
    (side = "BUY" ∧ t.entry_price = price * (1 + p.slippage)
      ∧ t.commission = ((quantity : ℚ) * t.entry_price) * p.commission
      ∧ p'.cash = p.cash - ((quantity : ℚ) * t.entry_price + t.commission)
      ∧ t.exit_date = none)
  ∨ (side = "SELL" ∧ t.entry_price = price * (1 - p.slippage)
      ∧ t.commission = ((quantity : ℚ) * t.entry_price) * p.commission
      ∧ p'.cash = p.cash + (quantity : ℚ) * t.entry_price - t.commission
      ∧ (lookupD p.positions symbol 0 - quantity = 0 →
          lookupO p'.positions symbol = none)
      ∧ t.exit_date = some date ∧ t.entry_date = date) := by
  by_cases hb : side = "BUY"
  · subst hb
    by_cases hcost : (quantity : ℚ) * (price * (1 + p.slippage)) +
        ((quantity : ℚ) * (price * (1 + p.slippage))) * p.commission ≤ p.cash
    · rw [exec_buy_accepted p symbol quantity price date reason hcost] at h
      simp only [Prod.mk.injEq, Option.some.injEq] at h
      obtain ⟨ht, hp'⟩ := h
      subst ht
      subst hp'
      exact Or.inl ⟨rfl, rfl, rfl, rfl, rfl⟩
    · rw [exec_buy_rejected p symbol quantity price date reason (not_le.mp hcost)] at h
      simp at h
  · by_cases hs : side = "SELL"
    · subst hs
      by_cases hheld : quantity ≤ lookupD p.positions symbol 0
      · rw [exec_sell_accepted p symbol quantity price date reason hheld] at h
        simp only [Prod.mk.injEq, Option.some.injEq] at h
        obtain ⟨ht, hp'⟩ := h
        subst ht
        refine Or.inr ⟨rfl, rfl, rfl, ?_, ?_, rfl, rfl⟩
        · by_cases hz : lookupD (setKey p.positions symbol
              (lookupD p.positions symbol 0 - quantity)) symbol 0 = 0
          · rw [if_pos hz] at hp'
            rw [← hp']
          · rw [if_neg hz] at hp'
            rw [← hp']
        · intro hzero
          have hz : lookupD (setKey p.positions symbol
              (lookupD p.positions symbol 0 - quantity)) symbol 0 = 0 := by
            rw [lookupD_setKey_self]
            exact hzero
          rw [if_pos hz] at hp'
          rw [← hp']
          exact lookupO_delKey_self _ _
      · rw [exec_sell_rejected p symbol quantity price date reason (not_le.mp hheld)] at h
        simp at h
    · rw [exec_other_side p symbol side quantity price date reason hb hs] at h
      simp at h

/-- Witness for C8: a concrete accepted SELL that fully closes the position
(5 units held, 5 sold at price 10, zero rates). -/
theorem C8_accepted_trade_effects_witness :
    (("SELL" : String) = "BUY" ∧ (10 : ℚ) = 10 * (1 + (0 : ℚ))
      ∧ (0 : ℚ) = (((5 : Int) : ℚ) * 10) * 0
      ∧ (50 : ℚ) = 0 - (((5 : Int) : ℚ) * 10 + 0)
      ∧ (some (0 : Int) : Option Int) = none)
  ∨ (("SELL" : String) = "SELL" ∧ (10 : ℚ) = 10 * (1 - (0 : ℚ))
      ∧ (0 : ℚ) = (((5 : Int) : ℚ) * 10) * 0
      ∧ (50 : ℚ) = 0 + ((5 : Int) : ℚ) * 10 - 0
      ∧ (lookupD [("T", (5 : Int))] "T" 0 - 5 = 0 →
          lookupO ([] : List (String × Int)) "T" = none)
      ∧ (some (0 : Int) : Option Int) = some 0 ∧ (0 : Int) = 0) :=
  C8_accepted_trade_effects
    { initial_capital := 0, cash := 0, commission := 0, slippage := 0,
      positions := [("T", 5)], current_prices := [], total_value := 0, positions_value := 0 }
    "T" "SELL" 5 10 0 ""
    { symbol := "T", entry_date := 0, exit_date := some 0, entry_price := 10,
      exit_price := some 10, quantity := 5, side := "SELL", pnl := none,
      commission := 0, reason := "" }
    { initial_capital := 0, cash := 50, commission := 0, slippage := 0,
      positions := [], current_prices := [], total_value := 0, positions_value := 0 }
    (by norm_num [execute_trade, executionPrice, lookupD, lookupO, setKey, delKey, sell_ne_buy])

/-- Claim C10, counterexample to the claim as stated: a SELL of quantity 0
is not always accepted — after a negative-quantity BUY leaves position -5,
the guard `held >= 0` fails and the zero-quantity SELL is rejected. -/
theorem C10_sell_zero_counterexample :
    (execute_trade ((execute_trade (mkPortfolio 100 0 0) "T" "BUY" (-5) 10 0 "").2)
      "T" "SELL" 0 20 0 "").1 = none := by
  norm_num [execute_trade, executionPrice, mkPortfolio, lookupD, lookupO, setKey,
    sell_ne_buy]

/-- Claim C10 as amended: whenever the held quantity for the symbol (0 when
absent) is nonnegative — in particular when no position is held — a SELL of
quantity 0 is accepted, returns a closed trade with commission 0, leaves the
cash unchanged, and leaves the positions dict unchanged except that an
existing zero entry for the symbol is removed. -/
theorem C10_sell_zero_accepted (p : BacktestPortfolio) (symbol : String) (price : ℚ)
    (d : Int) (reason : String) (h : 0 ≤ lookupD p.positions symbol 0) :
    ((execute_trade p symbol "SELL" 0 price d reason).1.map Trade.exit_date
        = some (some d))
    ∧ ((execute_trade p symbol "SELL" 0 price d reason).1.map Trade.commission = some 0)
    ∧ (execute_trade p symbol "SELL" 0 price d reason).2.cash = p.cash
    ∧ (execute_trade p symbol "SELL" 0 price d reason).2.positions =
        (if lookupD p.positions symbol 0 = 0 then delKey p.positions symbol
         else p.positions) := by
  rw [exec_sell_accepted p symbol 0 price d reason h]
  refine ⟨rfl, by simp, ?_, ?_⟩
  · by_cases hz : lookupD (setKey p.positions symbol
        (lookupD p.positions symbol 0 - 0)) symbol 0 = 0
    · rw [if_pos hz]
      show p.cash + ((0 : Int) : ℚ) * (price * (1 - p.slippage)) -
          (((0 : Int) : ℚ) * (price * (1 - p.slippage))) * p.commission = p.cash
      push_cast
      ring
    · rw [if_neg hz]
      show p.cash + ((0 : Int) : ℚ) * (price * (1 - p.slippage)) -
          (((0 : Int) : ℚ) * (price * (1 - p.slippage))) * p.commission = p.cash
      push_cast
      ring
  · by_cases hz0 : lookupD p.positions symbol 0 = 0
    · have hz : lookupD (setKey p.positions symbol
          (lookupD p.positions symbol 0 - 0)) symbol 0 = 0 := by
        rw [lookupD_setKey_self]
        omega
      rw [if_pos hz, if_pos hz0]
      show delKey (setKey p.positions symbol (lookupD p.positions symbol 0 - 0)) symbol
        = delKey p.positions symbol
      rw [delKey_setKey]
    · have hz : ¬ lookupD (setKey p.positions symbol
          (lookupD p.positions symbol 0 - 0)) symbol 0 = 0 := by
        rw [lookupD_setKey_self]
        omega
      rw [if_neg hz, if_neg hz0]
      show setKey p.positions symbol (lookupD p.positions symbol 0 - 0) = p.positions
      have he : lookupD p.positions symbol 0 - 0 = lookupD p.positions symbol 0 := by omega
      rw [he]
      exact setKey_eq_self_of_lookupO _ _ _ (lookupO_of_lookupD_ne p.positions symbol 0 hz0)

/-- Witness for C10: the amended statement applied to a fresh portfolio with
no position in the symbol. -/
theorem C10_sell_zero_accepted_witness :
    ((execute_trade (mkPortfolio 100 0 0) "T" "SELL" 0 20 0 "").1.map Trade.exit_date
        = some (some 0))
    ∧ ((execute_trade (mkPortfolio 100 0 0) "T" "SELL" 0 20 0 "").1.map Trade.commission
        = some 0)
    ∧ (execute_trade (mkPortfolio 100 0 0) "T" "SELL" 0 20 0 "").2.cash
        = (mkPortfolio 100 0 0).cash
    ∧ (execute_trade (mkPortfolio 100 0 0) "T" "SELL" 0 20 0 "").2.positions =
        (if lookupD (mkPortfolio 100 0 0).positions "T" 0 = 0 then
          delKey (mkPortfolio 100 0 0).positions "T"
         else (mkPortfolio 100 0 0).positions) :=
  C10_sell_zero_accepted (mkPortfolio 100 0 0) "T" 20 0 "" (by decide)

/-- Claim C4, counterexample to the claim as stated: a run that fails (no
historical data loads) keeps status failed but is never moved to the
completed dict — the move sits on the success path only — so
`get_backtest_results` returns nothing for it. -/
theorem C4_failed_run_counterexample :
    get_backtest_status (runTrace [EngineOp.create "b1" sampleConfig 0,
      EngineOp.start "b1", EngineOp.run "b1" 1 RunData.noData]) "b1"
      = some BacktestStatus.failed
    ∧ lookupO (runTrace [EngineOp.create "b1" sampleConfig 0,
        EngineOp.start "b1", EngineOp.run "b1" 1 RunData.noData]).completed_backtests "b1"
      = none
    ∧ get_backtest_results (runTrace [EngineOp.create "b1" sampleConfig 0,
        EngineOp.start "b1", EngineOp.run "b1" 1 RunData.noData]) "b1" = none := by
  decide

/-- Claim C4 as amended: a spawned run that completes successfully is moved
from the active dict to the completed dict exactly once — afterwards
`get_backtest_results` returns its record with status completed and no
further operation changes that entry; a run that fails stays in the active
dict with status failed and `get_backtest_results` returns nothing for it. -/
theorem C4_run_completion_registry (st : EngineState) (id : String) (now : Int)
    (days : List DayInput)
    (hth : id ∈ st.executor_threads)
    (hact : (lookupO st.active_backtests id).isSome = true)
    (hcomp : lookupO st.completed_backtests id = none) :
    ((get_backtest_results (runBacktest st id now (RunData.ok days)) id).map
        BacktestResult.status = some BacktestStatus.completed)
    ∧ lookupO (runBacktest st id now (RunData.ok days)).active_backtests id = none
    ∧ (∀ op : EngineOp,
        get_backtest_results (engineStep (runBacktest st id now (RunData.ok days)) op) id
          = get_backtest_results (runBacktest st id now (RunData.ok days)) id)
    ∧ ((lookupO (runBacktest st id now RunData.noData).active_backtests id).map
        BacktestResult.status = some BacktestStatus.failed)
    ∧ get_backtest_results (runBacktest st id now RunData.noData) id = none := by
  rcases hao : lookupO st.active_backtests id with _ | r
  · rw [hao] at hact
    cases hact
  · obtain ⟨r2, hr2, heq⟩ := runBacktest_ok_shape st id now days r hth hao
    obtain ⟨r3, hr3, heq3⟩ := runBacktest_noData_shape st id now r hth hao
    have hc' : lookupO (runBacktest st id now (RunData.ok days)).completed_backtests id
        = some r2 := by
      rw [heq]
      exact lookupO_setKey_self _ _ _
    have ha' : lookupO (runBacktest st id now (RunData.ok days)).active_backtests id
        = none := by
      rw [heq]
      exact lookupO_delKey_self _ _
    refine ⟨?_, ha', ?_, ?_, ?_⟩
    · show (lookupO (runBacktest st id now (RunData.ok days)).completed_backtests id).map
          BacktestResult.status = some BacktestStatus.completed
      rw [hc']
      simp [hr2]
    · intro op
      show lookupO (engineStep (runBacktest st id now (RunData.ok days)) op).completed_backtests id
        = lookupO (runBacktest st id now (RunData.ok days)).completed_backtests id
      rw [completed_preserved _ id r2 hc' ha' op, hc']
    · rw [heq3]
      show (lookupO (setKey st.active_backtests id r3) id).map BacktestResult.status
        = some BacktestStatus.failed
      rw [lookupO_setKey_self]
      simp [hr3]
    · rw [heq3]
      exact hcomp

/-- Witness for C4: the amended statement applied to a concrete engine that
created and started one run; both the completing and the failing worker
outcomes are exercised, and the persistence conjunct is instantiated at a
concrete follow-up operation. -/
theorem C4_run_completion_registry_witness :
    ((get_backtest_results (runBacktest
        (runTrace [EngineOp.create "b1" sampleConfig 0, EngineOp.start "b1"]) "b1" 1
        (RunData.ok [{ date := 5, prices := [], signals := [] }])) "b1").map
        BacktestResult.status = some BacktestStatus.completed)
    ∧ ((lookupO (runBacktest
        (runTrace [EngineOp.create "b1" sampleConfig 0, EngineOp.start "b1"]) "b1" 1
        RunData.noData).active_backtests "b1").map BacktestResult.status
        = some BacktestStatus.failed)
    ∧ get_backtest_results (runBacktest
        (runTrace [EngineOp.create "b1" sampleConfig 0, EngineOp.start "b1"]) "b1" 1
        RunData.noData) "b1" = none
    ∧ get_backtest_results (engineStep (runBacktest
        (runTrace [EngineOp.create "b1" sampleConfig 0, EngineOp.start "b1"]) "b1" 1
        (RunData.ok [{ date := 5, prices := [], signals := [] }])) (EngineOp.start "x")) "b1"
      = get_backtest_results (runBacktest
        (runTrace [EngineOp.create "b1" sampleConfig 0, EngineOp.start "b1"]) "b1" 1
        (RunData.ok [{ date := 5, prices := [], signals := [] }])) "b1" :=
  have h := C4_run_completion_registry
    (runTrace [EngineOp.create "b1" sampleConfig 0, EngineOp.start "b1"]) "b1" 1
    [{ date := 5, prices := [], signals := [] }] (by decide) (by decide) (by decide)
  ⟨h.1, h.2.2.2.1, h.2.2.2.2, h.2.2.1 (EngineOp.start "x")⟩

/-- Claim C7, counterexample to the claim as stated: starting a still-pending
run twice spawns two workers; after the first worker fails the run, the
second worker re-reads it from the active dict, flips it back to running and
completes it — a failed (terminal) run becomes completed, so the status does
transition out of a terminal state. -/
theorem C7_double_start_counterexample :
    get_backtest_status (runTrace [EngineOp.create "b1" sampleConfig 0,
      EngineOp.start "b1", EngineOp.start "b1",
      EngineOp.run "b1" 1 RunData.noData]) "b1" = some BacktestStatus.failed
    ∧ get_backtest_status (runTrace [EngineOp.create "b1" sampleConfig 0,
        EngineOp.start "b1", EngineOp.start "b1",
        EngineOp.run "b1" 1 RunData.noData,
        EngineOp.run "b1" 2 (RunData.ok [{ date := 5, prices := [], signals := [] }])]) "b1"
      = some BacktestStatus.completed := by
  decide

/-- Claim C7 as amended: `start_backtest` returns false and changes nothing
unless the run is registered with status pending; and along every
well-formed trace — generated identifiers fresh, and no pending run started
a second time while its first worker has not yet executed — a run's observed
status only moves forward along pending → running → completed/failed, and
never changes once terminal. -/
theorem C7_status_forward :
    (∀ (st : EngineState) (id : String),
        (∀ r, lookupO st.active_backtests id = some r →
          r.status ≠ BacktestStatus.pending) →
        start_backtest st id = (false, st))
    ∧ (∀ (ops : List EngineOp) (op : EngineOp) (id : String) (s : BacktestStatus),
        wfTrace initialEngine (ops ++ [op]) →
        get_backtest_status (runTrace ops) id = some s →
        (get_backtest_status (runTrace (ops ++ [op])) id).isSome = true ∧
        ∀ s', get_backtest_status (runTrace (ops ++ [op])) id = some s' →
          allowedStep s s') := by
  constructor
  · exact start_backtest_false
  · intro ops op id s hwf hs
    obtain ⟨hops, hop⟩ := (wfTrace_append initialEngine ops op).mp hwf
    have hInv := runTrace_inv ops hops
    obtain ⟨s', hs', hall⟩ := engineStep_status_forward (runTrace ops) op id s hInv hop hs
    have hrt : runTrace (ops ++ [op]) = engineStep (runTrace ops) op := by
      simp [runTrace, List.foldl_append]
    rw [hrt]
    refine ⟨by rw [hs']; rfl, ?_⟩
    intro s'' hs''
    rw [hs'] at hs''
    cases hs''
    exact hall

/-- Witness for C7: the start-guard applied to an empty engine, and the
forward-step property applied to the concrete well-formed trace create;
start, where the status stays pending. -/
theorem C7_status_forward_witness :
    start_backtest initialEngine "nope" = (false, initialEngine)
    ∧ (get_backtest_status (runTrace ([EngineOp.create "b" sampleConfig 0]
        ++ [EngineOp.start "b"])) "b").isSome = true
    ∧ allowedStep BacktestStatus.pending BacktestStatus.pending :=
  have h2 := C7_status_forward.2 [EngineOp.create "b" sampleConfig 0]
    (EngineOp.start "b") "b" BacktestStatus.pending (by decide) (by decide)
  ⟨C7_status_forward.1 initialEngine "nope"
      (by intro r hr; simp [initialEngine, lookupO] at hr),
   h2.1, h2.2 BacktestStatus.pending (by decide)⟩
